import Mathlib

/-!
Verification of the FinTrack expense tracker (`app.py`) against its
specification.  The persisted CSV tables are modelled as Lean lists, the
pandas row operations as list operations, monetary amounts as rationals
and calendar dates as integers (only their ordering matters to the code).
Every operation of the `ExpenseTracker` class and of the authentication
layer is embedded as a pure function from the whole store `State` to a
result and an updated store: the code re-reads the files before every
mutation and reloads afterwards, so under the single-user sequential
model the in-memory view always equals the file contents filtered to the
current user.
-/

namespace FinTrack

/-- Calendar dates carry no time component in the code; only their order
is ever used, so they are modelled as integers (ordinal days). -/
abbrev Date := Int

/-- A row of `users.csv`: `username, password` (the stored hash). -/
structure UserRow where
  username : String
  password : String
deriving Repr, DecidableEq

/-- A row of `expenses.csv`: `username, date, category, amount, description`. -/
structure Expense where
  username : String
  date : Date
  category : String
  amount : ℚ
  description : String
deriving Repr, DecidableEq

/-- A row of `budgets.csv`: `username, category, amount`. -/
structure Budget where
  username : String
  category : String
  amount : ℚ
deriving Repr, DecidableEq

/-- The whole persistent store: the four CSV files.  `categories.csv`
rows are `(username, category)` pairs. -/
structure State where
  users : List UserRow
  expenses : List Expense
  categories : List (String × String)
  budgets : List Budget
deriving Repr, DecidableEq

/-- Model of `hash_password`: the code computes a SHA-256 hexdigest.  The digest is
modelled as an injective tagging function, idealising collision
resistance; the claims depend only on the hash being deterministic and
injective, never on its bit-level value. -/
def hash_password (password : String) : String :=
  "#sha256#" ++ password

/-- Model of `create_user`: fails on an empty username or password, or on a
duplicate username; otherwise appends `(username, hash(password))` to the
user table.  Mirrors `app.py` lines 28-40. -/
def create_user (s : State) (username password : String) : Bool × State :=
  if username = "" ∨ password = "" then (false, s)
  else if s.users.any (fun r => r.username == username) then (false, s)
  else (true, { s with users := s.users ++ [⟨username, hash_password password⟩] })

/-- Model of `verify_user`: true iff some user row has this username and the first
such row stores `hash(password)`.  Mirrors `app.py` lines 42-46
(`users[users['username'] == username]` then `.iloc[0]`). -/
def verify_user (s : State) (username password : String) : Bool :=
  match s.users.find? (fun r => r.username == username) with
  | none => false
  | some r => r.password == hash_password password

/-- Value of `self.expenses` after `load_data`: the expense file filtered to the
current user (`app.py` lines 82-85). -/
def userExpenses (s : State) (u : String) : List Expense :=
  s.expenses.filter (fun e => e.username == u)

/-- Value of `self.categories['category'].tolist()` after `load_data`: the user's
stored category names (`app.py` lines 87-88, 96). -/
def userCategories (s : State) (u : String) : List String :=
  (s.categories.filter (fun c => c.1 == u)).map Prod.snd

/-- Value of `self.budgets` after `load_data`: the budget file filtered to the
current user (`app.py` lines 90-91). -/
def userBudgets (s : State) (u : String) : List Budget :=
  s.budgets.filter (fun b => b.username == u)

/-- The fixed default categories (`app.py` lines 95 and 151). -/
def default_cats : List String := ["Food", "Transport", "Housing", "Other"]

/-- Model of `get_available_categories`, that is `list(set(default_cats + user_cats))`
(`app.py` lines 93-97).  The Python result is a set; it is modelled as the
deduplicated concatenation, which has the same members. -/
def get_available_categories (s : State) (u : String) : List String :=
  (default_cats ++ userCategories s u).dedup

/-- The expense-form data handed to `add_expense`: every caller fills the
`username` key with the tracker's own user, so the record keeps only the
four payload fields. -/
structure ExpenseData where
  date : Date
  category : String
  amount : ℚ
  description : String
deriving Repr, DecidableEq

/-- The row appended to `expenses.csv` for user `u` and form data `d`. -/
def mkExpense (u : String) (d : ExpenseData) : Expense :=
  ⟨u, d.date, d.category, d.amount, d.description⟩

/-- Value of `current_total` in `add_expense`: the sum of amounts over the user's
existing expenses in the given category (`app.py` line 112). -/
def categoryTotal (s : State) (u cat : String) : ℚ :=
  (((userExpenses s u).filter (fun e => e.category == cat)).map Expense.amount).sum

/-- Appending the validated expense row to the expense file
(`app.py` lines 117-120). -/
def appendExpense (s : State) (u : String) (d : ExpenseData) : State :=
  { s with expenses := s.expenses ++ [mkExpense u d] }

/-- Model of `add_expense` (`app.py` lines 99-122): rejects an unknown category;
then, if the user has a budget row for the category (the first matching
row, `.iloc[0]`), rejects when the existing category total plus the new
amount strictly exceeds the budget; otherwise appends the row.  Returns
`(ok, message, new store)`. -/
def add_expense (s : State) (u : String) (d : ExpenseData) : Bool × String × State :=
  if d.category ∈ get_available_categories s u then
    match (userBudgets s u).find? (fun b => b.category == d.category) with
    | some b =>
        if b.amount < categoryTotal s u d.category + d.amount then
          (false, "Adding this expense would exceed your budget for this category.", s)
        else
          (true, "Expense added successfully.", appendExpense s u d)
    | none => (true, "Expense added successfully.", appendExpense s u d)
  else
    (false, "Category does not exist.", s)

/-- A row of the uploaded CSV after `pd.to_datetime(df['date'],
errors='coerce')`: the `date` field is `none` exactly when the raw date
string failed to parse (pandas `NaT`). -/
structure RawRow where
  date : Option Date
  category : String
  amount : ℚ
  description : String
deriving Repr, DecidableEq

/-- The uploaded file: whether the four required columns are all present,
and its rows in input order. -/
structure UploadFile where
  hasRequiredCols : Bool
  rows : List RawRow
deriving Repr, DecidableEq

/-- The `ExpenseData` built from a bulk row (`row.to_dict()`); by the
fail-fast date check, `date` is always `some` when this is reached. -/
def rowData (r : RawRow) : ExpenseData :=
  ⟨r.date.getD 0, r.category, r.amount, r.description⟩

/-- The per-row loop of `add_bulk_expenses` (`app.py` lines 137-141):
each row goes through `add_expense` in input order against the store left
by the previous rows; a failing row contributes the message
`"Row with <description>: <message>"`.  Returns the final store and the
collected error messages in order. -/
def processRows (u : String) : State → List RawRow → State × List String
  | s, [] => (s, [])
  | s, r :: rs =>
      let res := add_expense s u (rowData r)
      let rest := processRows u res.2.2 rs
      (rest.1,
        (if res.1 then ([] : List String)
         else ["Row with " ++ r.description ++ ": " ++ res.2.1]) ++ rest.2)

/-- Model of `add_bulk_expenses` (`app.py` lines 124-147): fails fast, with the
store untouched, when a required column is missing or any row's date
failed to parse; otherwise runs the per-row loop and succeeds iff no row
failed, joining the collected errors otherwise. -/
def add_bulk_expenses (s : State) (u : String) (f : UploadFile) : Bool × String × State :=
  if ¬ f.hasRequiredCols then
    (false, "CSV must contain date, category, amount, description columns.", s)
  else if f.rows.any (fun r => r.date.isNone) then
    (false, "Invalid date format in CSV. Use YYYY-MM-DD.", s)
  else
    let res := processRows u s f.rows
    if res.2 = [] then (true, "All expenses added successfully.", res.1)
    else (false, String.intercalate "\n" res.2, res.1)

/-- Model of `add_category` (`app.py` lines 149-161): fails on an empty name, a
default name or a name already in the user's stored set; otherwise
appends the `(username, category)` row. -/
def add_category (s : State) (u : String) (category : String) : Bool × State :=
  if category = "" ∨ category ∈ default_cats ∨ category ∈ userCategories s u then
    (false, s)
  else
    (true, { s with categories := s.categories ++ [(u, category)] })

/-- Model of `set_budget` (`app.py` lines 163-174): drops every row for
`(username, category)` from the budget file, then appends the new row. -/
def set_budget (s : State) (u : String) (category : String) (amount : ℚ) : State :=
  { s with budgets :=
      (s.budgets.filter (fun b => !(b.username == u && b.category == category)))
        ++ [⟨u, category, amount⟩] }

/-- Model of `remove_budget` (`app.py` lines 176-181): drops every row for
`(username, category)` from the budget file; returns nothing, so no
failure can be signalled. -/
def remove_budget (s : State) (u : String) (category : String) : State :=
  { s with budgets :=
      s.budgets.filter (fun b => !(b.username == u && b.category == category)) }

/-- Model of `get_filtered_expenses` (`app.py` lines 183-198): on an empty user
ledger returns the empty frame; otherwise keeps the rows with
`start_date <= date <= end_date`, restricted by the category inclusion
test only when the `categories` argument is truthy (neither `None` nor
empty, Python `if categories:`), and by each amount bound only when it is
not `None`. -/
def get_filtered_expenses (s : State) (u : String) (start_date end_date : Date)
    (categories : Option (List String)) (min_amount max_amount : Option ℚ) :
    List Expense :=
  if userExpenses s u = [] then []
  else
    (userExpenses s u).filter (fun e =>
      decide (start_date ≤ e.date) && decide (e.date ≤ end_date)
      && (match categories with
          | some cs => if cs.isEmpty then true else cs.contains e.category
          | none => true)
      && (match min_amount with
          | some m => decide (m ≤ e.amount)
          | none => true)
      && (match max_amount with
          | some m => decide (e.amount ≤ m)
          | none => true))

/-- The number of budget rows stored for a `(username, category)` pair. -/
def budgetCount (s : State) (u c : String) : Nat :=
  (s.budgets.filter (fun b => b.username == u && b.category == c)).length

/-- The at-most-one-budget-row-per-`(username, category)` invariant. -/
def BudgetInv (s : State) : Prop :=
  ∀ u c, budgetCount s u c ≤ 1

/-! ### Basic lemmas about `add_expense` -/

lemma add_expense_cases (s : State) (u : String) (d : ExpenseData) :
    add_expense s u d = (false, "Category does not exist.", s) ∨
    add_expense s u d =
      (false, "Adding this expense would exceed your budget for this category.", s) ∨
    add_expense s u d = (true, "Expense added successfully.", appendExpense s u d) := by
  unfold add_expense
  split
  · split
    · split
      · right; left; rfl
      · right; right; rfl
    · right; right; rfl
  · left; rfl

lemma add_expense_fail_state {s : State} {u : String} {d : ExpenseData}
    (h : (add_expense s u d).1 = false) : (add_expense s u d).2.2 = s := by
  rcases add_expense_cases s u d with hc | hc | hc
  · rw [hc]
  · rw [hc]
  · rw [hc] at h; exact absurd h (by simp)

lemma add_expense_success_state {s : State} {u : String} {d : ExpenseData}
    (h : (add_expense s u d).1 = true) : (add_expense s u d).2.2 = appendExpense s u d := by
  rcases add_expense_cases s u d with hc | hc | hc
  · rw [hc] at h; exact absurd h (by simp)
  · rw [hc] at h; exact absurd h (by simp)
  · rw [hc]

lemma add_expense_budgets (s : State) (u : String) (d : ExpenseData) :
    (add_expense s u d).2.2.budgets = s.budgets := by
  rcases add_expense_cases s u d with hc | hc | hc
  · rw [hc]
  · rw [hc]
  · rw [hc]; rfl

lemma add_expense_users (s : State) (u : String) (d : ExpenseData) :
    (add_expense s u d).2.2.users = s.users := by
  rcases add_expense_cases s u d with hc | hc | hc
  · rw [hc]
  · rw [hc]
  · rw [hc]; rfl

lemma add_expense_categories (s : State) (u : String) (d : ExpenseData) :
    (add_expense s u d).2.2.categories = s.categories := by
  rcases add_expense_cases s u d with hc | hc | hc
  · rw [hc]
  · rw [hc]
  · rw [hc]; rfl

lemma add_expense_expenses_grow (s : State) (u : String) (d : ExpenseData) :
    ∃ tl, (add_expense s u d).2.2.expenses = s.expenses ++ tl := by
  rcases h : (add_expense s u d).1 with _ | _
  · exact ⟨[], by rw [add_expense_fail_state h]; simp⟩
  · exact ⟨[mkExpense u d], by rw [add_expense_success_state h]; rfl⟩

/-- C1: `add_expense` fails iff the category is unavailable, or
the budget row the code consults (the first row for the category among
the user's budgets; unique under the C4 invariant) exists and the
existing category total plus the new amount strictly exceeds its limit.
Equality with the limit therefore succeeds. -/
theorem add_expense_fail_iff (s : State) (u : String) (d : ExpenseData) :
    (add_expense s u d).1 = false ↔
      d.category ∉ get_available_categories s u ∨
      ∃ b, (userBudgets s u).find? (fun b => b.category == d.category) = some b ∧
        b.amount < categoryTotal s u d.category + d.amount := by
  unfold add_expense
  by_cases hmem : d.category ∈ get_available_categories s u
  · rcases hf : (userBudgets s u).find? (fun b => b.category == d.category) with _ | b
    · simp [hmem, hf]
    · by_cases hlt : b.amount < categoryTotal s u d.category + d.amount
      · simp [hmem, hf, hlt]
      · simp [hmem, hf, hlt]
  · simp [hmem]

attribute [local semireducible] Rat.add Rat.mul Rat.sub Rat.inv Rat.ofScientific

/-- C3: a failed `add_expense` leaves the store untouched, and the
spec's concrete scenario holds: with a budget of 100 for "Food", adding
60 and then 40 both succeed (total exactly 100), and a further 0.01 is
rejected with the budget-exceeded message while the total stays 100. -/
theorem add_expense_failure_preserves_ledger :
    (∀ (s : State) (u : String) (d : ExpenseData),
      (add_expense s u d).1 = false → (add_expense s u d).2.2 = s) ∧
    (let s1 := set_budget (⟨[], [], [], []⟩ : State) "alice" "Food" 100
     let r1 := add_expense s1 "alice" ⟨0, "Food", 60, "groceries"⟩
     let r2 := add_expense r1.2.2 "alice" ⟨1, "Food", 40, "dinner"⟩
     let r3 := add_expense r2.2.2 "alice" ⟨2, "Food", 1/100, "snack"⟩
     r1.1 = true ∧ categoryTotal r1.2.2 "alice" "Food" = 60 ∧
     r2.1 = true ∧ categoryTotal r2.2.2 "alice" "Food" = 100 ∧
     r3.1 = false ∧
     r3.2.1 = "Adding this expense would exceed your budget for this category." ∧
     categoryTotal r3.2.2 "alice" "Food" = 100) := by
  refine ⟨fun s u d h => add_expense_fail_state h, ?_⟩
  decide

/-- Witness for C3: a concrete failing `add_expense` (unknown category
"Play") leaves the concrete store unchanged. -/
theorem add_expense_failure_preserves_ledger_witness :
    (add_expense (⟨[], [], [], [⟨"alice", "Food", 100⟩]⟩ : State) "alice"
        ⟨0, "Play", 5, "x"⟩).1 = false ∧
    (add_expense (⟨[], [], [], [⟨"alice", "Food", 100⟩]⟩ : State) "alice"
        ⟨0, "Play", 5, "x"⟩).2.2 = ⟨[], [], [], [⟨"alice", "Food", 100⟩]⟩ :=
  ⟨by decide,
    add_expense_failure_preserves_ledger.1 ⟨[], [], [], [⟨"alice", "Food", 100⟩]⟩
      "alice" ⟨0, "Play", 5, "x"⟩ (by decide)⟩

/-! ### Helper lemmas for the budget-uniqueness invariant (C4, C9) -/

lemma filter_budget_filter_not (l : List Budget) (u c : String) :
    (l.filter (fun b => !(b.username == u && b.category == c))).filter
      (fun b => b.username == u && b.category == c) = [] := by
  induction l with
  | nil => rfl
  | cons b l ih =>
      cases h : (b.username == u && b.category == c) with
      | true =>
          simp only [List.filter_cons, h, Bool.not_true, Bool.false_eq_true, if_false]
          exact ih
      | false =>
          simp only [List.filter_cons, h, Bool.not_false, if_true, Bool.false_eq_true,
            if_false]
          exact ih

lemma budgetInv_of_budgets_eq {s s' : State} (h : s'.budgets = s.budgets)
    (hs : BudgetInv s) : BudgetInv s' := by
  intro u c
  unfold budgetCount
  rw [h]
  exact hs u c

lemma add_category_budgets (s : State) (u c : String) :
    (add_category s u c).2.budgets = s.budgets := by
  unfold add_category
  split <;> rfl

lemma create_user_budgets (s : State) (un pw : String) :
    (create_user s un pw).2.budgets = s.budgets := by
  unfold create_user
  split
  · rfl
  · split <;> rfl

lemma processRows_budgets (u : String) :
    ∀ (rows : List RawRow) (s : State), (processRows u s rows).1.budgets = s.budgets := by
  intro rows
  induction rows with
  | nil => intro s; rfl
  | cons r rs ih =>
      intro s
      show (processRows u (add_expense s u (rowData r)).2.2 rs).1.budgets = s.budgets
      rw [ih, add_expense_budgets]

lemma add_bulk_budgets (s : State) (u : String) (f : UploadFile) :
    (add_bulk_expenses s u f).2.2.budgets = s.budgets := by
  unfold add_bulk_expenses
  by_cases h1 : f.hasRequiredCols
  · by_cases h2 : f.rows.any (fun r => r.date.isNone) = true
    · simp [h1, h2]
    · simp only [h1, h2, not_true_eq_false, if_false, Bool.false_eq_true, if_neg]
      split <;> simp [processRows_budgets]
  · simp [h1]

lemma budgetCount_set_budget_self (s : State) (u c : String) (a : ℚ) :
    budgetCount (set_budget s u c a) u c = 1 := by
  unfold budgetCount set_budget
  simp only [List.filter_append, List.length_append]
  rw [filter_budget_filter_not]
  simp [List.filter_cons]

lemma budgetCount_set_budget_other (s : State) (u c : String) (a : ℚ) (u' c' : String)
    (h : ¬(u' = u ∧ c' = c)) :
    budgetCount (set_budget s u c a) u' c' ≤ budgetCount s u' c' := by
  unfold budgetCount set_budget
  simp only [List.filter_append, List.length_append]
  have hnew : (List.filter (fun b => b.username == u' && b.category == c')
      [(⟨u, c, a⟩ : Budget)]).length = 0 := by
    have hb : ((⟨u, c, a⟩ : Budget).username == u' && (⟨u, c, a⟩ : Budget).category == c')
        = false := by
      by_contra hcc
      simp only [Bool.not_eq_false, Bool.and_eq_true, beq_iff_eq] at hcc
      exact h ⟨hcc.1.symm, hcc.2.symm⟩
    simp [List.filter_cons, hb]
  rw [hnew]
  simpa using
    List.Sublist.length_le (List.Sublist.filter _ (List.filter_sublist s.budgets))

lemma budgetCount_remove_budget_le (s : State) (u c u' c' : String) :
    budgetCount (remove_budget s u c) u' c' ≤ budgetCount s u' c' := by
  unfold budgetCount remove_budget
  exact List.Sublist.length_le (List.Sublist.filter _ (List.filter_sublist s.budgets))

/-- C4: after any `set_budget` there is exactly one budget row for the
written `(user, category)` pair, and the at-most-one-row invariant is
preserved by every operation of the tracker and the credential store. -/
theorem set_budget_unique_and_invariant :
    (∀ (s : State) (u c : String) (a : ℚ),
      budgetCount (set_budget s u c a) u c = 1) ∧
    (∀ s : State, BudgetInv s →
      (∀ u c a, BudgetInv (set_budget s u c a)) ∧
      (∀ u c, BudgetInv (remove_budget s u c)) ∧
      (∀ u d, BudgetInv (add_expense s u d).2.2) ∧
      (∀ u f, BudgetInv (add_bulk_expenses s u f).2.2) ∧
      (∀ u c, BudgetInv (add_category s u c).2) ∧
      (∀ un pw, BudgetInv (create_user s un pw).2)) := by
  constructor
  · exact budgetCount_set_budget_self
  · intro s hs
    refine ⟨?_, ?_, ?_, ?_, ?_, ?_⟩
    · intro u c a u' c'
      by_cases h : u' = u ∧ c' = c
      · obtain ⟨h1, h2⟩ := h
        subst h1; subst h2
        rw [budgetCount_set_budget_self]
      · exact le_trans (budgetCount_set_budget_other s u c a u' c' h) (hs u' c')
    · intro u c u' c'
      exact le_trans (budgetCount_remove_budget_le s u c u' c') (hs u' c')
    · intro u d
      exact budgetInv_of_budgets_eq (add_expense_budgets s u d) hs
    · intro u f
      exact budgetInv_of_budgets_eq (add_bulk_budgets s u f) hs
    · intro u c
      exact budgetInv_of_budgets_eq (add_category_budgets s u c) hs
    · intro un pw
      exact budgetInv_of_budgets_eq (create_user_budgets s un pw) hs

/-- Witness for C4: on a concrete store, a repeated `set_budget` leaves
exactly one "Food" budget row for "alice", and the invariant holds for
the resulting store. -/
theorem set_budget_unique_and_invariant_witness :
    budgetCount (set_budget (set_budget (⟨[], [], [], []⟩ : State)
        "alice" "Food" 50) "alice" "Food" 100) "alice" "Food" = 1 ∧
    BudgetInv (set_budget (⟨[], [], [], []⟩ : State) "alice" "Food" 100) :=
  ⟨set_budget_unique_and_invariant.1
      (set_budget (⟨[], [], [], []⟩ : State) "alice" "Food" 50) "alice" "Food" 100,
    (set_budget_unique_and_invariant.2 (⟨[], [], [], []⟩ : State)
      (fun _ _ => Nat.zero_le 1)).1 "alice" "Food" 100⟩

/-! ### C9: `remove_budget` -/

lemma filter_remove_other (l : List Budget) (u c u' c' : String)
    (h : ¬(u' = u ∧ c' = c)) :
    (l.filter (fun b => !(b.username == u && b.category == c))).filter
        (fun b => b.username == u' && b.category == c') =
      l.filter (fun b => b.username == u' && b.category == c') := by
  induction l with
  | nil => rfl
  | cons b l ih =>
      cases hp : (b.username == u && b.category == c) with
      | true =>
          have hp' : (b.username == u' && b.category == c') = false := by
            by_contra hcc
            have hcc' : (b.username == u' && b.category == c') = true := by
              revert hcc
              cases (b.username == u' && b.category == c') <;> simp
            simp only [Bool.and_eq_true, beq_iff_eq] at hp hcc'
            exact h ⟨hcc'.1.symm.trans hp.1, hcc'.2.symm.trans hp.2⟩
          simp only [List.filter_cons, hp, Bool.not_true, Bool.false_eq_true, if_false,
            hp']
          exact ih
      | false =>
          cases hp' : (b.username == u' && b.category == c') with
          | true =>
              simp only [List.filter_cons, hp, Bool.not_false, if_true, hp']
              rw [ih]
          | false =>
              simp only [List.filter_cons, hp, Bool.not_false, if_true, hp',
                Bool.false_eq_true, if_false]
              exact ih

lemma remove_budget_noop (s : State) (u c : String)
    (h : s.budgets.filter (fun b => b.username == u && b.category == c) = []) :
    remove_budget s u c = s := by
  unfold remove_budget
  have hall : s.budgets.filter (fun b => !(b.username == u && b.category == c))
      = s.budgets := by
    rw [List.filter_eq_self]
    intro b hb
    have hnone := List.filter_eq_nil_iff.mp h b hb
    revert hnone
    cases (b.username == u && b.category == c) <;> simp
  rw [hall]

/-- C9: the operation `remove_budget` leaves no budget row for the removed
`(user, category)` pair, leaves the budget rows of every other pair (and
all non-budget tables) exactly as they were, and is the identity when no
matching row exists; the operation returns only the new store, so no
failure is signalled in either case. -/
theorem remove_budget_spec (s : State) (u c : String) :
    budgetCount (remove_budget s u c) u c = 0 ∧
    (∀ u' c', ¬(u' = u ∧ c' = c) →
      (remove_budget s u c).budgets.filter
          (fun b => b.username == u' && b.category == c') =
        s.budgets.filter (fun b => b.username == u' && b.category == c')) ∧
    (s.budgets.filter (fun b => b.username == u && b.category == c) = [] →
      remove_budget s u c = s) ∧
    (remove_budget s u c).expenses = s.expenses ∧
    (remove_budget s u c).categories = s.categories ∧
    (remove_budget s u c).users = s.users := by
  refine ⟨?_, ?_, remove_budget_noop s u c, rfl, rfl, rfl⟩
  · unfold budgetCount remove_budget
    rw [filter_budget_filter_not]
    rfl
  · intro u' c' h
    exact filter_remove_other s.budgets u c u' c' h

/-- Witness for C9: removing a budget "alice" never set is a no-op on a
concrete store holding only a budget row of "bob", and "bob"'s row
survives unchanged. -/
theorem remove_budget_spec_witness :
    remove_budget (⟨[], [], [], [⟨"bob", "Food", 50⟩]⟩ : State) "alice" "Food" =
      (⟨[], [], [], [⟨"bob", "Food", 50⟩]⟩ : State) ∧
    (remove_budget (⟨[], [], [], [⟨"bob", "Food", 50⟩]⟩ : State) "alice" "Food").budgets.filter
        (fun b => b.username == "bob" && b.category == "Food") =
      (⟨[], [], [], [⟨"bob", "Food", 50⟩]⟩ : State).budgets.filter
        (fun b => b.username == "bob" && b.category == "Food") :=
  ⟨(remove_budget_spec ⟨[], [], [], [⟨"bob", "Food", 50⟩]⟩ "alice" "Food").2.2.1
      (by decide),
    (remove_budget_spec ⟨[], [], [], [⟨"bob", "Food", 50⟩]⟩ "alice" "Food").2.1
      "bob" "Food" (by decide)⟩

/-! ### C8: `add_category` -/

lemma add_category_cases (s : State) (u c : String) :
    add_category s u c = (false, s) ∨
    add_category s u c = (true, { s with categories := s.categories ++ [(u, c)] }) := by
  unfold add_category
  split
  · left; rfl
  · right; rfl

/-- C8: the operation `add_category` fails exactly when the name is empty, a default
name, or already among the user's stored categories; on success it
appends the `(user, name)` row, after which an identical second add
fails. -/
theorem add_category_spec (s : State) (u c : String) :
    ((add_category s u c).1 = false ↔
      c = "" ∨ c ∈ default_cats ∨ c ∈ userCategories s u) ∧
    ((add_category s u c).1 = true →
      (add_category s u c).2.categories = s.categories ++ [(u, c)]) ∧
    ((add_category s u c).1 = true →
      (add_category (add_category s u c).2 u c).1 = false) := by
  refine ⟨?_, ?_, ?_⟩
  · unfold add_category
    by_cases h : c = "" ∨ c ∈ default_cats ∨ c ∈ userCategories s u
    · simp [h]
    · simp [h]
  · intro ht
    rcases add_category_cases s u c with hc | hc
    · rw [hc] at ht; exact absurd ht (by simp)
    · rw [hc]
  · intro ht
    have hstate : (add_category s u c).2 = { s with categories := s.categories ++ [(u, c)] } := by
      rcases add_category_cases s u c with hc | hc
      · rw [hc] at ht; exact absurd ht (by simp)
      · rw [hc]
    rw [hstate]
    have hc : c ∈ userCategories { s with categories := s.categories ++ [(u, c)] } u := by
      unfold userCategories
      simp [List.filter_append, List.filter_cons]
    unfold add_category
    rw [if_pos (Or.inr (Or.inr hc))]

/-- Witness for C8: adding the fresh category "Games" for "alice"
succeeds once and the identical second add fails. -/
theorem add_category_spec_witness :
    (add_category (add_category (⟨[], [], [], []⟩ : State) "alice" "Games").2
      "alice" "Games").1 = false :=
  (add_category_spec ⟨[], [], [], []⟩ "alice" "Games").2.2 (by decide)

/-! ### C7: signup and login -/

lemma hash_password_injective {a b : String} (h : hash_password a = hash_password b) :
    a = b := by
  unfold hash_password at h
  have hd : ("#sha256#" ++ a).data = ("#sha256#" ++ b).data := by rw [h]
  simp [String.data_append] at hd
  exact String.ext hd

lemma create_user_cases (s : State) (un pw : String) :
    create_user s un pw = (false, s) ∨
    (create_user s un pw = (true, { s with users := s.users ++ [⟨un, hash_password pw⟩] }) ∧
      s.users.any (fun r => r.username == un) = false) := by
  unfold create_user
  by_cases h1 : un = "" ∨ pw = ""
  · rw [if_pos h1]; left; rfl
  · rw [if_neg h1]
    by_cases h2 : s.users.any (fun r => r.username == un) = true
    · rw [if_pos h2]; left; rfl
    · rw [if_neg h2]
      right
      exact ⟨rfl, by simpa using h2⟩

/-- C7: signup fails on empty credentials or a duplicate username; a
successful signup stores the hashed password, after which login with the
same credentials succeeds and login with any other password fails; login
for a username absent from the user table fails. -/
theorem auth_spec (s : State) (un pw : String) :
    ((un = "" ∨ pw = "") → (create_user s un pw).1 = false) ∧
    (un ∈ s.users.map UserRow.username → (create_user s un pw).1 = false) ∧
    ((create_user s un pw).1 = true →
      (UserRow.mk un (hash_password pw)) ∈ (create_user s un pw).2.users ∧
      verify_user (create_user s un pw).2 un pw = true ∧
      (∀ pw', pw' ≠ pw → verify_user (create_user s un pw).2 un pw' = false)) ∧
    (un ∉ s.users.map UserRow.username → verify_user s un pw = false) := by
  refine ⟨?_, ?_, ?_, ?_⟩
  · intro h
    unfold create_user
    rw [if_pos h]
  · intro h
    unfold create_user
    by_cases h1 : un = "" ∨ pw = ""
    · rw [if_pos h1]
    · rw [if_neg h1]
      obtain ⟨r, hr, hru⟩ := List.mem_map.mp h
      have hany2 : s.users.any (fun r => r.username == un) = true :=
        List.any_eq_true.mpr ⟨r, hr, by simp [hru]⟩
      rw [if_pos hany2]
  · intro ht
    rcases create_user_cases s un pw with hc | ⟨hc, hany⟩
    · rw [hc] at ht; exact absurd ht (by simp)
    · rw [hc]
      have hfind : s.users.find? (fun r => r.username == un) = none :=
        List.find?_eq_none.mpr (by simpa using hany)
      have hfind2 : ∀ pw0 : String,
          ({ s with users := s.users ++ [⟨un, hash_password pw⟩] } : State).users.find?
            (fun r => r.username == un) = some ⟨un, hash_password pw⟩ := by
        intro pw0
        show (s.users ++ [(⟨un, hash_password pw⟩ : UserRow)]).find?
            (fun r => r.username == un) = some (⟨un, hash_password pw⟩ : UserRow)
        rw [List.find?_append, hfind]
        simp [List.find?]
      refine ⟨by simp, ?_, ?_⟩
      · unfold verify_user
        rw [hfind2 pw]
        show (hash_password pw == hash_password pw) = true
        exact beq_self_eq_true _
      · intro pw' hne
        unfold verify_user
        rw [hfind2 pw']
        show (hash_password pw == hash_password pw') = false
        exact beq_eq_false_iff_ne.mpr
          (fun hcontra => hne (hash_password_injective hcontra).symm)
  · intro h
    unfold verify_user
    have hfind : s.users.find? (fun r => r.username == un) = none :=
      List.find?_eq_none.mpr (fun r hr hpr =>
        h (List.mem_map.mpr ⟨r, hr, by simpa using hpr⟩))
    rw [hfind]

/-- Witness for C7: on the empty store, creating "alice" succeeds, login
with the right password succeeds and with a wrong password fails. -/
theorem auth_spec_witness :
    verify_user (create_user (⟨[], [], [], []⟩ : State) "alice" "pw").2 "alice" "pw" = true ∧
    verify_user (create_user (⟨[], [], [], []⟩ : State) "alice" "pw").2 "alice" "bad" = false :=
  ⟨((auth_spec (⟨[], [], [], []⟩ : State) "alice" "pw").2.2.1 (by decide)).2.1,
    ((auth_spec (⟨[], [], [], []⟩ : State) "alice" "pw").2.2.1 (by decide)).2.2 "bad" (by decide)⟩

/-! ### C5, C6, C10: `get_filtered_expenses` -/

/-- C5: the filter returns exactly the user expenses whose date lies in
the inclusive range, each optional bound restricting the result only when
supplied; on an empty user ledger the result is empty and no failure
occurs (the function is total). -/
theorem get_filtered_expenses_spec (s : State) (u : String) (a b : Date)
    (cs : Option (List String)) (mi ma : Option ℚ) :
    (∀ e, e ∈ get_filtered_expenses s u a b cs mi ma ↔
      (e ∈ userExpenses s u ∧ a ≤ e.date ∧ e.date ≤ b ∧
        (∀ l, cs = some l → l ≠ [] → e.category ∈ l) ∧
        (∀ m, mi = some m → m ≤ e.amount) ∧
        (∀ m, ma = some m → e.amount ≤ m))) ∧
    (userExpenses s u = [] → get_filtered_expenses s u a b cs mi ma = []) := by
  constructor
  · intro e
    unfold get_filtered_expenses
    by_cases hemp : userExpenses s u = []
    · simp [hemp]
    · rw [if_neg hemp, List.mem_filter]
      rcases cs with _ | l
      · rcases mi with _ | m1 <;> rcases ma with _ | m2 <;> simp [and_assoc]
      · cases l with
        | nil => rcases mi with _ | m1 <;> rcases ma with _ | m2 <;> simp [and_assoc]
        | cons x xs =>
            rcases mi with _ | m1 <;> rcases ma with _ | m2 <;> simp [and_assoc]
  · intro hemp
    unfold get_filtered_expenses
    rw [if_pos hemp]

/-- Witness for C5: on a concrete one-expense ledger, the sole expense is
in the filtered result for a range containing its date. -/
theorem get_filtered_expenses_spec_witness :
    (⟨"alice", 5, "Food", 10, "t"⟩ : Expense) ∈
      get_filtered_expenses (⟨[], [⟨"alice", 5, "Food", 10, "t"⟩], [], []⟩ : State)
        "alice" 0 10 none none none :=
  ((get_filtered_expenses_spec (⟨[], [⟨"alice", 5, "Food", 10, "t"⟩], [], []⟩ : State)
      "alice" 0 10 none none none).1 ⟨"alice", 5, "Food", 10, "t"⟩).mpr
    ⟨by decide, by decide, by decide,
      fun l hl => absurd hl (by simp),
      fun m hm => absurd hm (by simp),
      fun m hm => absurd hm (by simp)⟩

/-- C6: narrowing a filter call over the same date range, by a category
restriction, a lower amount bound or an upper amount bound, only ever
removes rows: the narrowed result is a subset of the less-restricted
one. -/
theorem get_filtered_expenses_narrowing (s : State) (u : String) (a b : Date) :
    (∀ (cs : List String) (mi ma : Option ℚ),
      get_filtered_expenses s u a b (some cs) mi ma ⊆
        get_filtered_expenses s u a b none mi ma) ∧
    (∀ (cs : Option (List String)) (lo : ℚ) (ma : Option ℚ),
      get_filtered_expenses s u a b cs (some lo) ma ⊆
        get_filtered_expenses s u a b cs none ma) ∧
    (∀ (cs : Option (List String)) (mi : Option ℚ) (hi : ℚ),
      get_filtered_expenses s u a b cs mi (some hi) ⊆
        get_filtered_expenses s u a b cs mi none) := by
  refine ⟨?_, ?_, ?_⟩
  · intro cs mi ma x hx
    unfold get_filtered_expenses at hx ⊢
    by_cases hemp : userExpenses s u = []
    · rw [if_pos hemp] at hx
      exact absurd hx (by simp)
    · rw [if_neg hemp] at hx ⊢
      rw [List.mem_filter] at hx ⊢
      simp only [Bool.and_eq_true, eq_self_iff_true, true_and, and_true] at hx ⊢
      tauto
  · intro cs lo ma x hx
    unfold get_filtered_expenses at hx ⊢
    by_cases hemp : userExpenses s u = []
    · rw [if_pos hemp] at hx
      exact absurd hx (by simp)
    · rw [if_neg hemp] at hx ⊢
      rw [List.mem_filter] at hx ⊢
      simp only [Bool.and_eq_true, eq_self_iff_true, true_and, and_true] at hx ⊢
      tauto
  · intro cs mi hi x hx
    unfold get_filtered_expenses at hx ⊢
    by_cases hemp : userExpenses s u = []
    · rw [if_pos hemp] at hx
      exact absurd hx (by simp)
    · rw [if_neg hemp] at hx ⊢
      rw [List.mem_filter] at hx ⊢
      simp only [Bool.and_eq_true, eq_self_iff_true, true_and, and_true] at hx ⊢
      tauto

/-- Witness for C6: a membership in a category-narrowed result transfers
to the unrestricted result on a concrete ledger. -/
theorem get_filtered_expenses_narrowing_witness :
    (⟨"alice", 5, "Food", 10, "t"⟩ : Expense) ∈
      get_filtered_expenses (⟨[], [⟨"alice", 5, "Food", 10, "t"⟩], [], []⟩ : State)
        "alice" 0 10 none none none :=
  (get_filtered_expenses_narrowing
      (⟨[], [⟨"alice", 5, "Food", 10, "t"⟩], [], []⟩ : State) "alice" 0 10).1
    ["Food"] none none (by decide)

/-- C10: an empty categories collection behaves exactly like passing no
collection at all (Python `if categories:` is falsy on an empty list), so
it does not force an empty result. -/
theorem get_filtered_expenses_empty_categories (s : State) (u : String)
    (a b : Date) (mi ma : Option ℚ) :
    get_filtered_expenses s u a b (some []) mi ma =
      get_filtered_expenses s u a b none mi ma := rfl

/-! ### C2: `add_bulk_expenses` -/

lemma processRows_cons (u : String) (s : State) (r : RawRow) (rs : List RawRow) :
    processRows u s (r :: rs) =
      ((processRows u (add_expense s u (rowData r)).2.2 rs).1,
        (if (add_expense s u (rowData r)).1 then ([] : List String)
         else ["Row with " ++ r.description ++ ": " ++ (add_expense s u (rowData r)).2.1])
          ++ (processRows u (add_expense s u (rowData r)).2.2 rs).2) := rfl

lemma processRows_fst_cons (u : String) (s : State) (r : RawRow) (rs : List RawRow) :
    (processRows u s (r :: rs)).1 =
      (processRows u (add_expense s u (rowData r)).2.2 rs).1 := rfl

lemma processRows_expenses_grow (u : String) :
    ∀ (rows : List RawRow) (s : State),
      ∃ tl, (processRows u s rows).1.expenses = s.expenses ++ tl := by
  intro rows
  induction rows with
  | nil => exact fun s => ⟨[], by simp [processRows]⟩
  | cons r rs ih =>
      intro s
      obtain ⟨t1, h1⟩ := add_expense_expenses_grow s u (rowData r)
      obtain ⟨t2, h2⟩ := ih (add_expense s u (rowData r)).2.2
      exact ⟨t1 ++ t2, by rw [processRows_fst_cons, h2, h1, List.append_assoc]⟩

lemma processRows_mem_expenses (u : String) {e : Expense}
    (rows : List RawRow) (s : State) (he : e ∈ s.expenses) :
    e ∈ (processRows u s rows).1.expenses := by
  obtain ⟨tl, h⟩ := processRows_expenses_grow u rows s
  rw [h]
  exact List.mem_append_left _ he

lemma processRows_append (u : String) :
    ∀ (l1 l2 : List RawRow) (s : State),
      processRows u s (l1 ++ l2) =
        ((processRows u (processRows u s l1).1 l2).1,
          (processRows u s l1).2 ++ (processRows u (processRows u s l1).1 l2).2) := by
  intro l1
  induction l1 with
  | nil => intro l2 s; simp [processRows]
  | cons r rs ih =>
      intro l2 s
      rw [List.cons_append, processRows_cons u s r (rs ++ l2),
        ih l2 (add_expense s u (rowData r)).2.2, processRows_cons u s r rs]
      simp [List.append_assoc]

lemma processRows_errors_shape (u : String) :
    ∀ (rows : List RawRow) (s : State), ∀ err ∈ (processRows u s rows).2,
      ∃ pre r post, rows = pre ++ r :: post ∧
        (add_expense (processRows u s pre).1 u (rowData r)).1 = false ∧
        err = "Row with " ++ r.description ++ ": " ++
          (add_expense (processRows u s pre).1 u (rowData r)).2.1 := by
  intro rows
  induction rows with
  | nil => intro s err herr; exact absurd herr (by simp [processRows])
  | cons r rs ih =>
      intro s err herr
      rw [processRows_cons] at herr
      rw [List.mem_append] at herr
      rcases herr with h | h
      · by_cases hok : (add_expense s u (rowData r)).1 = true
        · rw [if_pos hok] at h
          exact absurd h (by simp)
        · rw [if_neg hok] at h
          rw [List.mem_singleton] at h
          refine ⟨[], r, rs, rfl, ?_, h⟩
          show (add_expense s u (rowData r)).1 = false
          simpa using hok
      · obtain ⟨pre', r', post', hsplit, hfail, herr'⟩ :=
          ih (add_expense s u (rowData r)).2.2 err h
        refine ⟨r :: pre', r', post', by rw [List.cons_append, hsplit], ?_, ?_⟩
        · show (add_expense (processRows u s (r :: pre')).1 u (rowData r')).1 = false
          rw [processRows_fst_cons]
          exact hfail
        · rw [herr']
          rw [processRows_fst_cons]

lemma processRows_error_of_fail (u : String)
    (pre : List RawRow) (r : RawRow) (post : List RawRow) (s : State)
    (hfail : (add_expense (processRows u s pre).1 u (rowData r)).1 = false) :
    ("Row with " ++ r.description ++ ": " ++
        (add_expense (processRows u s pre).1 u (rowData r)).2.1)
      ∈ (processRows u s (pre ++ r :: post)).2 := by
  rw [processRows_append u pre (r :: post) s, processRows_cons]
  apply List.mem_append_right
  simp [hfail]

lemma processRows_persist_of_success (u : String)
    (pre : List RawRow) (r : RawRow) (post : List RawRow) (s : State)
    (hok : (add_expense (processRows u s pre).1 u (rowData r)).1 = true) :
    mkExpense u (rowData r) ∈ (processRows u s (pre ++ r :: post)).1.expenses := by
  rw [processRows_append u pre (r :: post) s]
  show mkExpense u (rowData r) ∈
    (processRows u (add_expense (processRows u s pre).1 u (rowData r)).2.2 post).1.expenses
  apply processRows_mem_expenses
  rw [add_expense_success_state hok]
  simp [appendExpense]

lemma processRows_errors_nil_iff (u : String) :
    ∀ (rows : List RawRow) (s : State),
      (processRows u s rows).2 = [] ↔
        ∀ pre r post, rows = pre ++ r :: post →
          (add_expense (processRows u s pre).1 u (rowData r)).1 = true := by
  intro rows
  induction rows with
  | nil =>
      intro s
      constructor
      · intro _ pre r post h
        exact absurd h (by simp)
      · intro _
        rfl
  | cons hd tl ih =>
      intro s
      rw [processRows_cons]
      constructor
      · intro h pre r post hsplit
        rw [List.append_eq_nil] at h
        obtain ⟨hE, hrest⟩ := h
        have hok : (add_expense s u (rowData hd)).1 = true := by
          by_contra hbad
          rw [if_neg hbad] at hE
          exact absurd hE (by simp)
        cases pre with
        | nil =>
            rw [List.nil_append, List.cons.injEq] at hsplit
            obtain ⟨h1, _⟩ := hsplit
            subst h1
            show (add_expense (processRows u s []).1 u (rowData hd)).1 = true
            exact hok
        | cons p ps =>
            rw [List.cons_append, List.cons.injEq] at hsplit
            obtain ⟨h1, h2⟩ := hsplit
            subst h1
            have hp := (ih (add_expense s u (rowData hd)).2.2).mp hrest ps r post h2
            show (add_expense (processRows u s (hd :: ps)).1 u (rowData r)).1 = true
            rw [processRows_fst_cons]
            exact hp
      · intro hall
        have hok : (add_expense s u (rowData hd)).1 = true := hall [] hd tl rfl
        have hrest : (processRows u (add_expense s u (rowData hd)).2.2 tl).2 = [] := by
          rw [ih]
          intro pre r post hsplit
          have h2 := hall (hd :: pre) r post (by rw [List.cons_append, hsplit])
          rw [processRows_fst_cons] at h2
          exact h2
        rw [if_pos hok, hrest]
        rfl

/-- C2: the bulk import fails fast with the store untouched when a
required column is missing or some date fails to parse; otherwise it
processes the rows in input order through `add_expense`, its final store
is the loop's store (so every row that passed at its position is
persisted and never rolled back, conjunct 3), it succeeds iff every row
passed at its position, and the collected error list holds exactly the
messages of the failing rows, each tagged with that row's description
(conjuncts 4 and 5; a failing call returns them joined by newlines). -/
theorem add_bulk_spec (s : State) (u : String) (f : UploadFile) :
    (f.hasRequiredCols = false →
      (add_bulk_expenses s u f).1 = false ∧ (add_bulk_expenses s u f).2.2 = s) ∧
    (f.hasRequiredCols = true → (∃ r ∈ f.rows, r.date = none) →
      (add_bulk_expenses s u f).1 = false ∧ (add_bulk_expenses s u f).2.2 = s) ∧
    (f.hasRequiredCols = true → (∀ r ∈ f.rows, r.date ≠ none) →
      ((add_bulk_expenses s u f).2.2 = (processRows u s f.rows).1 ∧
       ((add_bulk_expenses s u f).1 = true ↔
         ∀ pre r post, f.rows = pre ++ r :: post →
           (add_expense (processRows u s pre).1 u (rowData r)).1 = true) ∧
       (∀ pre r post, f.rows = pre ++ r :: post →
         (add_expense (processRows u s pre).1 u (rowData r)).1 = true →
         mkExpense u (rowData r) ∈ (add_bulk_expenses s u f).2.2.expenses) ∧
       (∀ pre r post, f.rows = pre ++ r :: post →
         (add_expense (processRows u s pre).1 u (rowData r)).1 = false →
         ("Row with " ++ r.description ++ ": " ++
            (add_expense (processRows u s pre).1 u (rowData r)).2.1)
           ∈ (processRows u s f.rows).2) ∧
       (∀ err ∈ (processRows u s f.rows).2, ∃ pre r post,
         f.rows = pre ++ r :: post ∧
         (add_expense (processRows u s pre).1 u (rowData r)).1 = false ∧
         err = "Row with " ++ r.description ++ ": " ++
           (add_expense (processRows u s pre).1 u (rowData r)).2.1))) := by
  refine ⟨?_, ?_, ?_⟩
  · intro h
    unfold add_bulk_expenses
    rw [if_pos (by simp [h])]
    exact ⟨rfl, rfl⟩
  · intro h1 h2
    obtain ⟨r, hr, hd⟩ := h2
    unfold add_bulk_expenses
    rw [if_neg (by simp [h1]),
      if_pos (List.any_eq_true.mpr ⟨r, hr, by simp [hd]⟩)]
    exact ⟨rfl, rfl⟩
  · intro h1 h2
    have hne : ¬ (f.rows.any (fun r => r.date.isNone) = true) := by
      intro hc
      obtain ⟨r, hr, hd⟩ := List.any_eq_true.mp hc
      exact h2 r hr (by simpa using hd)
    have hshape : add_bulk_expenses s u f =
        (if (processRows u s f.rows).2 = [] then
          (true, "All expenses added successfully.", (processRows u s f.rows).1)
         else
          (false, String.intercalate "\n" (processRows u s f.rows).2,
            (processRows u s f.rows).1)) := by
      unfold add_bulk_expenses
      rw [if_neg (by simp [h1]), if_neg hne]
    refine ⟨?_, ?_, ?_, ?_, processRows_errors_shape u f.rows s⟩
    · rw [hshape]
      split <;> rfl
    · rw [hshape]
      split
      case isTrue hnil =>
        constructor
        · intro _
          exact (processRows_errors_nil_iff u f.rows s).mp hnil
        · intro _
          rfl
      case isFalse hnil =>
        constructor
        · intro hcontra
          exact absurd hcontra (by simp)
        · intro hall
          exact absurd ((processRows_errors_nil_iff u f.rows s).mpr hall) hnil
    · intro pre r post hsplit hok
      rw [hshape]
      have hmem := processRows_persist_of_success u pre r post s hok
      rw [← hsplit] at hmem
      split
      · exact hmem
      · exact hmem
    · intro pre r post hsplit hfail
      have hmem := processRows_error_of_fail u pre r post s hfail
      rw [← hsplit] at hmem
      exact hmem

/-- Witness for C2: the spec's concrete bulk upload (a valid "Food" row
then a row with unknown category "NoSuchCat") ends in the loop's store,
the first row's expense is persisted, and the second row's error message
is collected. -/
theorem add_bulk_spec_witness :
    ((add_bulk_expenses (⟨[], [], [], []⟩ : State) "alice"
        ⟨true, [⟨some 0, "Food", 20, "lunch"⟩, ⟨some 1, "NoSuchCat", 5, "x"⟩]⟩).2.2 =
      (processRows "alice" (⟨[], [], [], []⟩ : State)
        [⟨some 0, "Food", 20, "lunch"⟩, ⟨some 1, "NoSuchCat", 5, "x"⟩]).1) ∧
    (mkExpense "alice" (rowData ⟨some 0, "Food", 20, "lunch"⟩) ∈
      (add_bulk_expenses (⟨[], [], [], []⟩ : State) "alice"
        ⟨true, [⟨some 0, "Food", 20, "lunch"⟩, ⟨some 1, "NoSuchCat", 5, "x"⟩]⟩).2.2.expenses) ∧
    (("Row with " ++ "x" ++ ": " ++
        (add_expense (processRows "alice" (⟨[], [], [], []⟩ : State)
            [⟨some 0, "Food", 20, "lunch"⟩]).1 "alice"
          (rowData ⟨some 1, "NoSuchCat", 5, "x"⟩)).2.1) ∈
      (processRows "alice" (⟨[], [], [], []⟩ : State)
        [⟨some 0, "Food", 20, "lunch"⟩, ⟨some 1, "NoSuchCat", 5, "x"⟩]).2) :=
  ⟨((add_bulk_spec (⟨[], [], [], []⟩ : State) "alice"
      ⟨true, [⟨some 0, "Food", 20, "lunch"⟩, ⟨some 1, "NoSuchCat", 5, "x"⟩]⟩).2.2
      rfl (by decide)).1,
    ((add_bulk_spec (⟨[], [], [], []⟩ : State) "alice"
      ⟨true, [⟨some 0, "Food", 20, "lunch"⟩, ⟨some 1, "NoSuchCat", 5, "x"⟩]⟩).2.2
      rfl (by decide)).2.2.1 [] ⟨some 0, "Food", 20, "lunch"⟩
      [⟨some 1, "NoSuchCat", 5, "x"⟩] rfl (by decide),
    ((add_bulk_spec (⟨[], [], [], []⟩ : State) "alice"
      ⟨true, [⟨some 0, "Food", 20, "lunch"⟩, ⟨some 1, "NoSuchCat", 5, "x"⟩]⟩).2.2
      rfl (by decide)).2.2.2.1 [⟨some 0, "Food", 20, "lunch"⟩]
      ⟨some 1, "NoSuchCat", 5, "x"⟩ [] rfl (by decide)⟩

end FinTrack
